import Mathlib

/-!
Shallow embedding of the `iamy` fetcher core (`src/iamy/models.go`):
account identity parsing/rendering, policy-ARN construction and
normalisation, the skippable-resource classifier, policy version
selection, and the fetch join. Go strings are modelled as `List Char`,
Go `time.Time` creation dates as `Nat`, fallible code (regex mismatch
panics, missing-default-version panics, out-of-range indexing) as
`Option`/`Except`.
-/

namespace Iamy

/-- Go strings, modelled as lists of characters. -/
abbrev Str := List Char

/-- `Account` (models.go lines 9-12): numeric id plus optional alias. -/
structure Account where
  Id : Str
  Alias : Str
deriving Repr, DecidableEq

/-- `Account.String` (models.go lines 14-19): renders as "alias-id" when an
alias is present, else the bare id. -/
def Account.string (a : Account) : Str :=
  if a.Alias ≠ [] then a.Alias ++ '-' :: a.Id else a.Id

/-- Go regexp `\w`: ASCII letters, digits and underscore. -/
def isWordChar (c : Char) : Bool :=
  c.isAlphanum || c = '_'

/-- A character allowed in the alias group `[\w-]` of `accountReg`. -/
def isAliasChar (c : Char) : Bool :=
  isWordChar c || c = '-'

/-- Whether position `k` of `s` can serve as the separating hyphen of
`^(([\w-]+)-)?(\d+)$`: a non-empty all-`[\w-]` prefix before it, a
non-empty all-digit suffix after it. -/
def accountSplitAt (s : Str) (k : Nat) : Bool :=
  decide (1 ≤ k) && (s.take k).all isAliasChar && (s[k]? == some '-')
    && !(s.drop (k + 1)).isEmpty && (s.drop (k + 1)).all Char.isDigit

/-- The hyphen position chosen by the greedy match of
`accountReg = ^(([\w-]+)-)?(\d+)$` (models.go line 21): the largest
valid split position, if any. -/
def accountSplit (s : Str) : Option Nat :=
  (List.range s.length).reverse.find? (accountSplitAt s)

/-- `NewAccountFromString` (models.go lines 23-39): matches `s` against
`accountReg`; the alias group is greedy. The Go panic on a non-matching
string is modelled as `none`. -/
def NewAccountFromString (s : Str) : Option Account :=
  match accountSplit s with
  | some k => some { Id := s.drop (k + 1), Alias := s.take k }
  | none =>
    if !s.isEmpty && s.all Char.isDigit then
      some { Id := s, Alias := [] }
    else
      none

/-- `Account.arnFor` (models.go lines 258-260). -/
def Account.arnFor (a : Account) (key path name : Str) : Str :=
  "arn:aws:iam::".data ++ a.Id ++ ":".data ++ key ++ path ++ name

/-- The policy-ARN prefix `arn:aws:iam::<id>:policy/` this account owns. -/
def Account.policyArnPrefix (a : Account) : Str :=
  "arn:aws:iam::".data ++ a.Id ++ ":policy/".data

/-- `Account.policyArnFromString` (models.go lines 262-268): a string
already starting with "arn:" is returned unchanged, otherwise it is
expanded with this account's policy prefix. -/
def Account.policyArnFromString (a : Account) (nameOrArn : Str) : Str :=
  if "arn:".data.isPrefixOf nameOrArn then nameOrArn
  else a.policyArnPrefix ++ nameOrArn

/-- Go `strings.TrimPrefix`. -/
def trimPrefix (pre s : Str) : Str :=
  if pre.isPrefixOf s then s.drop pre.length else s

/-- `Account.normalisePolicyArn` (models.go lines 270-272): strips this
account's own policy-ARN prefix when present. -/
def Account.normalisePolicyArn (a : Account) (arn : Str) : Str :=
  trimPrefix a.policyArnPrefix arn

/-- Modelled from the spec: the CloudFormation resource-kind tags
(`CfnS3Bucket`, `CfnInstanceProfile`, `CfnIamUser`, `CfnIamGroup`,
`CfnIamRole`, `CfnIamPolicy`) used by the classifier; their defining file
(the cfn client) is not under src/, but the six constants are the only
values the fetcher passes. -/
inductive CfnResourceType where
  | CfnS3Bucket
  | CfnInstanceProfile
  | CfnIamUser
  | CfnIamGroup
  | CfnIamRole
  | CfnIamPolicy
deriving Repr, DecidableEq

export CfnResourceType (CfnS3Bucket CfnInstanceProfile CfnIamUser CfnIamGroup
  CfnIamRole CfnIamPolicy)

/-- Go `map[string]string`, modelled as an association list. -/
abbrev Tags := List (Str × Str)

/-- Go map indexing `tags[key]` returning `(value, ok)`. -/
def lookupTag (tags : Tags) (key : Str) : Option Str :=
  tags.lookup key

/-- The configuration fields of `AwsFetcher` (models.go lines 287-308) that
the classifier and the policy loop read, together with the ownership index.
The index itself is modelled from the spec: the cfn client
(`PopulateMangedResourceData` / `IsManagedResource`) is not under src/, and
the spec describes it as "a per-resource-kind membership index consumed by
classifier step 4". -/
structure AwsFetcher where
  SkipFetchingPolicyAndRoleDescriptions : Bool := false
  SkipTagged : List Str := []
  IncludeTagged : List Str := []
  SkipPathPrefixes : List Str := []
  cfnManagedResources : List (CfnResourceType × Str) := []
deriving Repr

/-- Modelled from the spec: `cfn.IsManagedResource(cfnType, identifier)` as
membership in the per-kind ownership index. -/
def AwsFetcher.IsManagedResource (f : AwsFetcher) (t : CfnResourceType)
    (resourceIdentifier : Str) : Bool :=
  f.cfnManagedResources.contains (t, resourceIdentifier)

/-- Go `strings.Contains(haystack, needle)`: some suffix of the haystack
starts with the needle. -/
def strContains (haystack needle : Str) : Bool :=
  (List.range (haystack.length + 1)).any
    (fun i => needle.isPrefixOf (haystack.drop i))

/-- `fmt.Sprintf("Skipping resource %s tagged with %s in stack %s", ...)`. -/
def skipTaggedReason (resourceIdentifier tag stackName : Str) : Str :=
  "Skipping resource ".data ++ resourceIdentifier ++ " tagged with ".data
    ++ tag ++ " in stack ".data ++ stackName

/-- `fmt.Sprintf("Skipping resource %s with path %s matches %s", ...)`. -/
def skipPathReason (resourceIdentifier resourcePath path : Str) : Str :=
  "Skipping resource ".data ++ resourceIdentifier ++ " with path ".data
    ++ resourcePath ++ " matches ".data ++ path

/-- `fmt.Sprintf("CloudFormation generated resource %s", ...)`. -/
def cfnGeneratedReason (resourceIdentifier : Str) : Str :=
  "CloudFormation generated resource ".data ++ resourceIdentifier

/-- `fmt.Sprintf("AWS Service role generated resource %s", ...)`. -/
def serviceRoleReason (resourceIdentifier : Str) : Str :=
  "AWS Service role generated resource ".data ++ resourceIdentifier

/-- Steps 2-6 of `AwsFetcher.isSkippableManagedResource` (models.go lines
736-756): the checks that run after the force-include loop has not
short-circuited. -/
def isSkippableTail (f : AwsFetcher) (cfnType : CfnResourceType)
    (resourceIdentifier : Str) (tags : Tags) (resourcePath : Str) : Bool × Str :=
  match f.SkipTagged.find? (fun tag => (lookupTag tags tag).isSome) with
  | some tag =>
    (true, skipTaggedReason resourceIdentifier tag ((lookupTag tags tag).getD []))
  | none =>
    match f.SkipPathPrefixes.find? (fun path => path.isPrefixOf resourcePath) with
    | some path => (true, skipPathReason resourceIdentifier resourcePath path)
    | none =>
      if f.IsManagedResource cfnType resourceIdentifier then
        (true, cfnGeneratedReason resourceIdentifier)
      else if strContains resourceIdentifier "AWSServiceRole".data
          || strContains resourceIdentifier "aws-service-role".data then
        (true, serviceRoleReason resourceIdentifier)
      else
        (false, [])

/-- `AwsFetcher.isSkippableManagedResource` (models.go lines 727-757):
force-include tags short-circuit everything; then skip tags, skip path
prefixes, the ownership index, and the service-linked-role markers, in
that order. -/
def AwsFetcher.isSkippableManagedResource (f : AwsFetcher)
    (cfnType : CfnResourceType) (resourceIdentifier : Str) (tags : Tags)
    (resourcePath : Str) : Bool × Str :=
  if 0 < f.IncludeTagged.length then
    if f.IncludeTagged.any (fun tag => (lookupTag tags tag).isSome) then
      (false, [])
    else
      isSkippableTail f cfnType resourceIdentifier tags resourcePath
  else
    isSkippableTail f cfnType resourceIdentifier tags resourcePath

/-- The fields of `iam.PolicyVersion` the fetcher reads; `CreateDate`
(`time.Time`) is modelled as an instant in `Nat`, with `Before` as `<`. -/
structure PolicyVersion where
  VersionId : Str
  Document : Str
  IsDefaultVersion : Bool
  CreateDate : Nat
deriving Repr, DecidableEq

/-- `findDefaultPolicyVersion` (models.go lines 667-674): first version
flagged default; the Go panic "Expected a default policy version" is
modelled as `none`. -/
def findDefaultPolicyVersion (versions : List PolicyVersion) :
    Option PolicyVersion :=
  versions.find? (fun version => version.IsDefaultVersion)

/-- `findNonDefaultPolicyVersionIds` (models.go lines 676-684). -/
def findNonDefaultPolicyVersionIds (versions : List PolicyVersion) :
    List Str :=
  (versions.filter (fun version => !version.IsDefaultVersion)).map
    (fun version => version.VersionId)

/-- The loop step of `findOldestPolicyVersionId`: keep `version` when its
creation date is strictly before the current oldest. -/
def pickOlder (oldest version : PolicyVersion) : PolicyVersion :=
  if version.CreateDate < oldest.CreateDate then version else oldest

/-- `findOldestPolicyVersionId` (models.go lines 686-694): start from
`versions[0]` and scan the rest. The Go out-of-range fault on an empty
slice is modelled as `none`. -/
def findOldestPolicyVersionId (versions : List PolicyVersion) : Option Str :=
  match versions with
  | [] => none
  | v :: rest => some (rest.foldl pickOlder v).VersionId

/-- Modelled from the spec: `PolicyDocument` is "parsed JSON; opaque beyond
parse/serialize in this core" (its defining file is not under src/); we
carry the source text. -/
structure PolicyDocument where
  json : Str
deriving Repr, DecidableEq

/-- Modelled from the spec: `NewPolicyDocumentFromEncodedJson` parses a
policy body and "malformed JSON fails the entire fetch"; the external
parser's acceptance set is abstracted as the predicate `jsonOk`. -/
def NewPolicyDocumentFromEncodedJson (jsonOk : Str → Bool) (s : Str) :
    Option PolicyDocument :=
  if jsonOk s then some ⟨s⟩ else none

/-- `Policy` (models.go lines 96-104). -/
structure Policy where
  Name : Str
  Path : Str
  numberOfVersions : Nat
  oldestVersionId : Str
  nondefaultVersionIds : List Str
  Description : Str := []
  Policy : PolicyDocument
  Tags : Tags := []
deriving Repr, DecidableEq

/-- The fields of `iam.ManagedPolicyDetail` the policy loop reads. -/
structure ManagedPolicyDetail where
  PolicyName : Str
  Path : Str
  Arn : Str
  PolicyVersionList : List PolicyVersion
deriving Repr, DecidableEq

/-- The fatal outcomes of the per-policy loop body: the
missing-default-version panic, the out-of-range fault of
`findOldestPolicyVersionId` on an empty slice, and a malformed policy
document. -/
inductive IamFetchError where
  | noDefaultVersion
  | indexOutOfRange
  | badPolicyJson
deriving Repr, DecidableEq

/-- The `Policy` record the loop body builds (models.go lines 634-652),
its tags resolved from the batched lookup result (empty map when the ARN
is absent from it). -/
def builtPolicy (policyTags : List (Str × Tags))
    (policyResp : ManagedPolicyDetail) (doc : PolicyDocument)
    (oldestVersionId : Str) : Policy :=
  { Name := policyResp.PolicyName
    Path := policyResp.Path
    oldestVersionId := oldestVersionId
    numberOfVersions := policyResp.PolicyVersionList.length
    nondefaultVersionIds :=
      findNonDefaultPolicyVersionIds policyResp.PolicyVersionList
    Policy := doc
    Tags := (policyTags.lookup policyResp.Arn).getD [] }

/-- The tail of the policy loop body (models.go lines 653-659): run the
classifier a second time with the resolved tags, then append. -/
def populateIamPolicySecondPass (f : AwsFetcher)
    (policyTags : List (Str × Tags)) (policyResp : ManagedPolicyDetail)
    (doc : PolicyDocument) (oldestVersionId : Str) :
    Except IamFetchError (Option Policy) :=
  if (f.isSkippableManagedResource CfnIamPolicy policyResp.PolicyName
      (builtPolicy policyTags policyResp doc oldestVersionId).Tags
      policyResp.Path).1 then
    .ok none
  else
    .ok (some (builtPolicy policyTags policyResp doc oldestVersionId))

/-- The per-policy loop body of `AwsFetcher.populateIamData` (models.go
lines 622-659): first classifier pass with an empty tag map, then default
version selection, document parse, version metadata, and the tag-dependent
second pass. `.ok none` means the policy was skipped; `policyTags` is the
result of the single batched `getMultiplePolicyTags` lookup. -/
def populateIamPolicy (f : AwsFetcher) (jsonOk : Str → Bool)
    (policyTags : List (Str × Tags)) (policyResp : ManagedPolicyDetail) :
    Except IamFetchError (Option Policy) :=
  if (f.isSkippableManagedResource CfnIamPolicy policyResp.PolicyName []
      policyResp.Path).1 then
    .ok none
  else
    match findDefaultPolicyVersion policyResp.PolicyVersionList with
    | none => .error .noDefaultVersion
    | some defaultPolicyVersion =>
      match NewPolicyDocumentFromEncodedJson jsonOk
          defaultPolicyVersion.Document with
      | none => .error .badPolicyJson
      | some doc =>
        match findOldestPolicyVersionId policyResp.PolicyVersionList with
        | none => .error .indexOutOfRange
        | some oldestVersionId =>
          populateIamPolicySecondPass f policyTags policyResp doc
            oldestVersionId

/-- The tag sets the classifier is invoked with for one policy, in call
order, following the control flow of the loop body: the first pass always
runs with the empty tag map; the second pass runs, with the tags resolved
by the batched lookup, only when the first pass did not skip and no fatal
error intervened. -/
def populateIamPolicyClassifierCalls (f : AwsFetcher) (jsonOk : Str → Bool)
    (policyTags : List (Str × Tags)) (policyResp : ManagedPolicyDetail) :
    List Tags :=
  if (f.isSkippableManagedResource CfnIamPolicy policyResp.PolicyName []
      policyResp.Path).1 then
    [[]]
  else
    match findDefaultPolicyVersion policyResp.PolicyVersionList with
    | none => [[]]
    | some defaultPolicyVersion =>
      match NewPolicyDocumentFromEncodedJson jsonOk
          defaultPolicyVersion.Document with
      | none => [[]]
      | some _ =>
        match findOldestPolicyVersionId policyResp.PolicyVersionList with
        | none => [[]]
        | some _ => [[], (policyTags.lookup policyResp.Arn).getD []]

/-- The policy loop of `AwsFetcher.populateIamData` over one page: fatal
errors abort, skipped policies contribute nothing, accepted policies are
appended in arrival order. -/
def populateIamPolicies (f : AwsFetcher) (jsonOk : Str → Bool)
    (policyTags : List (Str × Tags)) :
    List ManagedPolicyDetail → Except IamFetchError (List Policy)
  | [] => .ok []
  | policyResp :: rest =>
    match populateIamPolicy f jsonOk policyTags policyResp with
    | .error e => .error e
    | .ok none => populateIamPolicies f jsonOk policyTags rest
    | .ok (some p) =>
      match populateIamPolicies f jsonOk policyTags rest with
      | .error e => .error e
      | .ok ps => .ok (p :: ps)

/-- `InlinePolicy` (models.go lines 91-94). -/
structure InlinePolicy where
  Name : Str
  Policy : PolicyDocument
deriving Repr, DecidableEq

/-- `User` (models.go lines 69-75). -/
structure User where
  Name : Str
  Path : Str
  Groups : List Str := []
  InlinePolicies : List InlinePolicy := []
  Policies : List Str := []
  Tags : Tags := []
deriving Repr, DecidableEq

/-- `Group` (models.go lines 81-85). -/
structure Group where
  Name : Str
  Path : Str
  InlinePolicies : List InlinePolicy := []
  Policies : List Str := []
deriving Repr, DecidableEq

/-- `Role` (models.go lines 110-117). -/
structure Role where
  Name : Str
  Path : Str
  Description : Str := []
  AssumeRolePolicyDocument : PolicyDocument
  InlinePolicies : List InlinePolicy := []
  Policies : List Str := []
  MaxSessionDuration : Nat := 0
deriving Repr, DecidableEq

/-- `InstanceProfile` (models.go lines 119-122). -/
structure InstanceProfile where
  Name : Str
  Path : Str
  Roles : List Str := []
deriving Repr, DecidableEq

/-- `BucketPolicy` (models.go lines 132-135). -/
structure BucketPolicy where
  BucketName : Str
  Policy : PolicyDocument
deriving Repr, DecidableEq

/-- `AccountData` (models.go lines 153-161). -/
structure AccountData where
  Account : Account
  Users : List User := []
  Groups : List Group := []
  Roles : List Role := []
  Policies : List Policy := []
  BucketPolicies : List BucketPolicy := []
  InstanceProfiles : List InstanceProfile := []
deriving Repr, DecidableEq

/-- `errors.Wrap(err, msg)` from github.com/pkg/errors: the wrapping
message paired with the wrapped cause. -/
structure WrappedError where
  msg : Str
  cause : Str
deriving Repr, DecidableEq

/-- The join of the two concurrent tasks in `AwsFetcher.Fetch` (models.go
lines 342-368): after `wg.Wait()`, the IAM task's error is checked first
and wrapped with "Error fetching IAM data"; otherwise the S3 task's error
is wrapped with "Error fetching S3 data"; only when both are nil is the
populated `AccountData` returned. -/
def fetchJoin (iamErr s3Err : Option Str) (data : AccountData) :
    Except WrappedError AccountData :=
  match iamErr with
  | some e => .error ⟨"Error fetching IAM data".data, e⟩
  | none =>
    match s3Err with
    | some e => .error ⟨"Error fetching S3 data".data, e⟩
    | none => .ok data

/-! ### Concrete example values, used by the witnesses -/

/-- The version list of the spec's worked example: v1 oldest and not
default, v2 default, v3 newest and not default. -/
def exVersions : List PolicyVersion :=
  [⟨"v1".data, "doc1".data, false, 10⟩,
   ⟨"v2".data, "doc2".data, true, 20⟩,
   ⟨"v3".data, "doc3".data, false, 30⟩]

def exManagedPolicy : ManagedPolicyDetail :=
  ⟨"MyPolicy".data, "/".data,
   "arn:aws:iam::123456789012:policy/MyPolicy".data, exVersions⟩

/-- The `Policy` the loop stores for `exManagedPolicy`. -/
def exPolicy : Policy :=
  { Name := "MyPolicy".data
    Path := "/".data
    numberOfVersions := 3
    oldestVersionId := "v1".data
    nondefaultVersionIds := ["v1".data, "v3".data]
    Description := []
    Policy := ⟨"doc2".data⟩
    Tags := [] }

/-- A managed policy whose path matches the skip prefix "/skip/". -/
def exSkippedPolicy : ManagedPolicyDetail :=
  ⟨"SecretPolicy".data, "/skip/x/".data,
   "arn:aws:iam::123456789012:policy/SecretPolicy".data, exVersions⟩

def exData : AccountData :=
  { Account := ⟨"123456789012".data, "acme".data⟩ }

/-! ### Account identity: supporting lemmas -/

theorem split_reconstruct {s : Str} {k : Nat} {c : Char} (h : s[k]? = some c) :
    s.take k ++ c :: s.drop (k + 1) = s := by
  obtain ⟨hk, hc⟩ := List.getElem?_eq_some_iff.mp h
  conv_rhs => rw [← List.take_append_drop k s, List.drop_eq_getElem_cons hk, hc]

theorem accountSplit_spec {s : Str} {k : Nat} (h : accountSplit s = some k) :
    1 ≤ k ∧ (s.take k).all isAliasChar = true ∧ s[k]? = some '-' ∧
      s.drop (k + 1) ≠ [] ∧ (s.drop (k + 1)).all Char.isDigit = true := by
  have hp := List.find?_some h
  simp only [accountSplitAt, Bool.and_eq_true, decide_eq_true_eq, beq_iff_eq,
    Bool.not_eq_true', List.isEmpty_eq_false] at hp
  exact ⟨hp.1.1.1.1, hp.1.1.1.2, hp.1.1.2, hp.1.2, hp.2⟩

theorem accountSplit_alias_ne_nil {s : Str} {k : Nat} (h : accountSplit s = some k) :
    s.take k ≠ [] := by
  obtain ⟨h1, _, h3, _, _⟩ := accountSplit_spec h
  obtain ⟨hk, _⟩ := List.getElem?_eq_some_iff.mp h3
  rw [Ne, List.take_eq_nil_iff]
  rintro (rfl | rfl)
  · exact absurd h1 (by omega)
  · exact absurd hk (by simp)

/-- C5: for every account string of the form `<alias>-<digits>` or `<digits>`,
rendering the parsed `Account` with `Account.string` reproduces the original
string: "alias-id" when an alias was parsed, bare "id" otherwise. -/
theorem account_parse_render_round_trip (s : Str) (a : Account)
    (h : NewAccountFromString s = some a) : a.string = s := by
  unfold NewAccountFromString at h
  cases hsplit : accountSplit s with
  | some k =>
    rw [hsplit] at h
    obtain ⟨_, _, h3, _, _⟩ := accountSplit_spec hsplit
    injection h with h
    subst h
    simp only [Account.string, accountSplit_alias_ne_nil hsplit, ne_eq,
      not_false_eq_true, if_true]
    exact split_reconstruct h3
  | none =>
    rw [hsplit] at h
    by_cases hc : (!s.isEmpty && s.all Char.isDigit) = true
    · rw [if_pos hc] at h
      injection h with h
      subst h
      simp [Account.string]
    · rw [if_neg hc] at h
      exact absurd h (by simp)

/-- C5 witness: the theorem applied to the concrete string "prod-123". -/
theorem account_parse_render_round_trip_witness :
    Account.string ⟨"123".data, "prod".data⟩ = "prod-123".data :=
  account_parse_render_round_trip "prod-123".data ⟨"123".data, "prod".data⟩ (by decide)

/-- C8: parsing fails (no `Account` is produced) for the empty string and for
every string with no trailing run of digits; parsing succeeds only for strings
of the shape `<digits>` optionally preceded by `<alias>-`. -/
theorem account_parse_failure_shape :
    NewAccountFromString ([] : Str) = none ∧
    (∀ s : Str, (∀ c, s.getLast? = some c → c.isDigit = false) →
      NewAccountFromString s = none) ∧
    (∀ (s : Str) (a : Account), NewAccountFromString s = some a →
      (s ≠ [] ∧ s.all Char.isDigit = true) ∨
      ∃ al ds : Str, al ≠ [] ∧ al.all isAliasChar = true ∧ ds ≠ [] ∧
        ds.all Char.isDigit = true ∧ s = al ++ '-' :: ds) := by
  refine ⟨by decide, ?_, ?_⟩
  · intro s hlast
    unfold NewAccountFromString
    cases hsplit : accountSplit s with
    | some k =>
      exfalso
      obtain ⟨_, _, h3, h4, h5⟩ := accountSplit_spec hsplit
      obtain ⟨c, hc⟩ := Option.isSome_iff_exists.mp (List.getLast?_isSome.mpr h4)
      have hdig : c.isDigit = true :=
        List.all_eq_true.mp h5 c (List.mem_of_getLast?_eq_some hc)
      have hs : s.getLast? = some c := by
        rw [← split_reconstruct h3, List.getLast?_append]
        have : ('-' :: s.drop (k + 1)) = ['-'] ++ s.drop (k + 1) := rfl
        rw [this, List.getLast?_append, hc]
        rfl
      rw [hlast c hs] at hdig
      exact Bool.false_ne_true hdig
    | none =>
      by_cases hc : (!s.isEmpty && s.all Char.isDigit) = true
      · exfalso
        simp only [Bool.and_eq_true, Bool.not_eq_true', List.isEmpty_eq_false] at hc
        obtain ⟨c, hgl⟩ := Option.isSome_iff_exists.mp (List.getLast?_isSome.mpr hc.1)
        have hdig : c.isDigit = true :=
          List.all_eq_true.mp hc.2 c (List.mem_of_getLast?_eq_some hgl)
        rw [hlast c hgl] at hdig
        exact Bool.false_ne_true hdig
      · rw [if_neg hc]
  · intro s a h
    unfold NewAccountFromString at h
    cases hsplit : accountSplit s with
    | some k =>
      rw [hsplit] at h
      obtain ⟨_, h2, h3, h4, h5⟩ := accountSplit_spec hsplit
      exact Or.inr ⟨s.take k, s.drop (k + 1), accountSplit_alias_ne_nil hsplit,
        h2, h4, h5, (split_reconstruct h3).symm⟩
    | none =>
      rw [hsplit] at h
      by_cases hc : (!s.isEmpty && s.all Char.isDigit) = true
      · simp only [Bool.and_eq_true, Bool.not_eq_true', List.isEmpty_eq_false] at hc
        exact Or.inl hc
      · rw [if_neg hc] at h
        exact absurd h (by simp)

/-- C8 witness: the theorem applied to the concrete string "prod-", which has
no trailing digit run. -/
theorem account_parse_failure_shape_witness :
    NewAccountFromString "prod-".data = none := by
  refine account_parse_failure_shape.2.1 "prod-".data ?_
  intro c hc
  have h1 : ("prod-".data : Str).getLast? = some '-' := by decide
  rw [h1] at hc
  cases hc
  decide

/-- C6: for every string `x` not starting with "arn:",
`normalisePolicyArn (policyArnFromString x) = x`; and every string already
starting with "arn:" is returned unchanged by `policyArnFromString`. -/
theorem policyArn_round_trip (a : Account) (x : Str) :
    ("arn:".data.isPrefixOf x = false →
      a.normalisePolicyArn (a.policyArnFromString x) = x) ∧
    ("arn:".data.isPrefixOf x = true → a.policyArnFromString x = x) := by
  constructor
  · intro h
    unfold Account.policyArnFromString
    rw [if_neg (by simp [h])]
    unfold Account.normalisePolicyArn trimPrefix
    rw [if_pos (List.isPrefixOf_iff_prefix.mpr (List.prefix_append _ _)),
      List.drop_left]
  · intro h
    unfold Account.policyArnFromString
    rw [if_pos h]

/-- C6 witness: the round trip evaluated on the bare name "MyPolicy" for a
concrete account, and identity on a string already carrying "arn:". -/
theorem policyArn_round_trip_witness :
    (Account.mk "123456789012".data "acme".data).normalisePolicyArn
      ((Account.mk "123456789012".data "acme".data).policyArnFromString
        "MyPolicy".data) = "MyPolicy".data ∧
    (Account.mk "123456789012".data "acme".data).policyArnFromString
      "arn:aws:iam::aws:policy/ReadOnly".data =
      "arn:aws:iam::aws:policy/ReadOnly".data :=
  ⟨(policyArn_round_trip (Account.mk "123456789012".data "acme".data)
      "MyPolicy".data).1 (by decide),
   (policyArn_round_trip (Account.mk "123456789012".data "acme".data)
      "arn:aws:iam::aws:policy/ReadOnly".data).2 (by decide)⟩

/-! ### Classifier theorems -/

theorem lookupTag_nil (key : Str) : lookupTag [] key = none := rfl

/-- C3: if any configured force-include tag key is present in the tag set,
`isSkippableManagedResource` returns `(false, "")`, whatever skip tags,
skip path prefixes, ownership-index entries or service-linked-role markers
are also present. -/
theorem include_tagged_not_skipped (f : AwsFetcher) (ct : CfnResourceType)
    (resourceIdentifier : Str) (tags : Tags) (resourcePath : Str)
    (h : ∃ t ∈ f.IncludeTagged, (lookupTag tags t).isSome = true) :
    f.isSkippableManagedResource ct resourceIdentifier tags resourcePath
      = (false, []) := by
  obtain ⟨t, ht, hsome⟩ := h
  unfold AwsFetcher.isSkippableManagedResource
  rw [if_pos (List.length_pos.mpr (List.ne_nil_of_mem ht)),
    if_pos (List.any_eq_true.mpr ⟨t, ht, hsome⟩)]

/-- C3 witness: a resource carrying both the force-include tag and the skip
tag, on a skipped path, present in the ownership index, and carrying the
service-role marker, is still not skipped. -/
theorem include_tagged_not_skipped_witness :
    AwsFetcher.isSkippableManagedResource
      { SkipTagged := ["cfn".data], IncludeTagged := ["iamy".data],
        SkipPathPrefixes := ["/skip/".data],
        cfnManagedResources := [(CfnIamRole, "AWSServiceRoleX".data)] }
      CfnIamRole "AWSServiceRoleX".data
      [("iamy".data, "1".data), ("cfn".data, "mystack".data)]
      "/skip/deep/".data = (false, []) :=
  include_tagged_not_skipped
    { SkipTagged := ["cfn".data], IncludeTagged := ["iamy".data],
      SkipPathPrefixes := ["/skip/".data],
      cfnManagedResources := [(CfnIamRole, "AWSServiceRoleX".data)] }
    CfnIamRole "AWSServiceRoleX".data
    [("iamy".data, "1".data), ("cfn".data, "mystack".data)]
    "/skip/deep/".data (by decide)

/-- C7: a resource with an empty tag set and no ownership-index entry whose
path starts with a configured skip-path-prefix is skipped, with a reason
naming the matched prefix. -/
theorem skip_path_matched (f : AwsFetcher) (ct : CfnResourceType)
    (resourceIdentifier resourcePath : Str)
    (hcfn : f.IsManagedResource ct resourceIdentifier = false)
    (h : ∃ p ∈ f.SkipPathPrefixes, p.isPrefixOf resourcePath = true) :
    ∃ p, p ∈ f.SkipPathPrefixes ∧ p.isPrefixOf resourcePath = true ∧
      f.isSkippableManagedResource ct resourceIdentifier [] resourcePath
        = (true, skipPathReason resourceIdentifier resourcePath p) := by
  have htail : ∃ p, p ∈ f.SkipPathPrefixes ∧ p.isPrefixOf resourcePath = true ∧
      isSkippableTail f ct resourceIdentifier [] resourcePath
        = (true, skipPathReason resourceIdentifier resourcePath p) := by
    have hskip : f.SkipTagged.find?
        (fun tag => (lookupTag [] tag).isSome) = none := by
      rw [List.find?_eq_none]
      intro t _
      simp [lookupTag_nil]
    have hfind : (f.SkipPathPrefixes.find?
        (fun path => path.isPrefixOf resourcePath)).isSome := by
      rw [List.find?_isSome]
      obtain ⟨p, hp, hpre⟩ := h
      exact ⟨p, hp, hpre⟩
    obtain ⟨p0, hp0⟩ := Option.isSome_iff_exists.mp hfind
    have hpre : p0.isPrefixOf resourcePath = true := by
      have hx := List.find?_some hp0
      simpa using hx
    refine ⟨p0, List.mem_of_find?_eq_some hp0, hpre, ?_⟩
    unfold isSkippableTail
    rw [hskip, hp0]
  obtain ⟨p0, hp0mem, hp0pre, hp0eq⟩ := htail
  refine ⟨p0, hp0mem, hp0pre, ?_⟩
  unfold AwsFetcher.isSkippableManagedResource
  by_cases hlen : 0 < f.IncludeTagged.length
  · rw [if_pos hlen, if_neg ?_, hp0eq]
    simp [lookupTag_nil]
  · rw [if_neg hlen, hp0eq]

/-- C7 witness: the theorem applied to a concrete fetcher with one skip
prefix "/aws/" and a resource at path "/aws/thing". -/
theorem skip_path_matched_witness :
    ∃ p, p ∈ [("/aws/".data : Str)] ∧ p.isPrefixOf "/aws/thing".data = true ∧
      AwsFetcher.isSkippableManagedResource
        { SkipPathPrefixes := ["/aws/".data] } CfnIamUser "alice".data []
        "/aws/thing".data
        = (true, skipPathReason "alice".data "/aws/thing".data p) :=
  skip_path_matched { SkipPathPrefixes := ["/aws/".data] } CfnIamUser
    "alice".data "/aws/thing".data (by decide) (by decide)

/-! ### Policy version selection -/

theorem pickOlder_le_left (v w : PolicyVersion) :
    (pickOlder v w).CreateDate ≤ v.CreateDate := by
  unfold pickOlder
  split
  · exact Nat.le_of_lt (by assumption)
  · exact Nat.le_refl _

theorem pickOlder_le_right (v w : PolicyVersion) :
    (pickOlder v w).CreateDate ≤ w.CreateDate := by
  unfold pickOlder
  split
  · exact Nat.le_refl _
  · exact Nat.le_of_not_lt (by assumption)

theorem pickOlder_eq_or (v w : PolicyVersion) :
    pickOlder v w = v ∨ pickOlder v w = w := by
  unfold pickOlder
  split
  · exact Or.inr rfl
  · exact Or.inl rfl

theorem foldl_pickOlder_spec (rest : List PolicyVersion) (v : PolicyVersion) :
    (rest.foldl pickOlder v = v ∨ rest.foldl pickOlder v ∈ rest) ∧
    (rest.foldl pickOlder v).CreateDate ≤ v.CreateDate ∧
    ∀ w ∈ rest, (rest.foldl pickOlder v).CreateDate ≤ w.CreateDate := by
  induction rest generalizing v with
  | nil => exact ⟨Or.inl rfl, Nat.le_refl _, by simp⟩
  | cons w rest ih =>
    simp only [List.foldl_cons]
    obtain ⟨hmem, hle, hall⟩ := ih (pickOlder v w)
    refine ⟨?_, ?_, ?_⟩
    · rcases hmem with h | h
      · rcases pickOlder_eq_or v w with h2 | h2
        · exact Or.inl (h.trans h2)
        · exact Or.inr (by rw [h, h2]; exact List.mem_cons_self _ _)
      · exact Or.inr (List.mem_cons_of_mem _ h)
    · exact hle.trans (pickOlder_le_left v w)
    · intro x hx
      rcases List.mem_cons.mp hx with rfl | hx
      · exact hle.trans (pickOlder_le_right v x)
      · exact hall x hx

theorem findOldestPolicyVersionId_spec (versions : List PolicyVersion)
    (hne : versions ≠ []) :
    ∃ o ∈ versions, findOldestPolicyVersionId versions = some o.VersionId ∧
      ∀ w ∈ versions, o.CreateDate ≤ w.CreateDate := by
  cases versions with
  | nil => exact absurd rfl hne
  | cons v rest =>
    obtain ⟨hmem, hle, hall⟩ := foldl_pickOlder_spec rest v
    refine ⟨rest.foldl pickOlder v, ?_, rfl, ?_⟩
    · rcases hmem with h | h
      · rw [h]; exact List.mem_cons_self _ _
      · exact List.mem_cons_of_mem _ h
    · intro w hw
      rcases List.mem_cons.mp hw with rfl | hw
      · exact hle
      · exact hall w hw

theorem NewPolicyDocumentFromEncodedJson_eq {jsonOk : Str → Bool} {s : Str}
    {doc : PolicyDocument}
    (h : NewPolicyDocumentFromEncodedJson jsonOk s = some doc) :
    doc = ⟨s⟩ := by
  unfold NewPolicyDocumentFromEncodedJson at h
  split at h
  · exact (Option.some_inj.mp h).symm
  · exact absurd h (by simp)

/-- C2: a managed policy stored by the loop body carries the
default-flagged version's document as the live document, a minimum-by-
creation-time version id as `oldestVersionId`, the non-default version ids
in order, and the version-list length as `numberOfVersions`; and when no
version is flagged default (and the first classifier pass did not skip),
the fetch fails fatally. -/
theorem policy_version_selection (f : AwsFetcher) (jsonOk : Str → Bool)
    (policyTags : List (Str × Tags)) (policyResp : ManagedPolicyDetail) :
    (∀ p, populateIamPolicy f jsonOk policyTags policyResp = .ok (some p) →
      (∃ dv, findDefaultPolicyVersion policyResp.PolicyVersionList = some dv ∧
        dv.IsDefaultVersion = true ∧ p.Policy = ⟨dv.Document⟩) ∧
      (∃ ov ∈ policyResp.PolicyVersionList,
        p.oldestVersionId = ov.VersionId ∧
        ∀ w ∈ policyResp.PolicyVersionList, ov.CreateDate ≤ w.CreateDate) ∧
      p.nondefaultVersionIds
        = (policyResp.PolicyVersionList.filter
            (fun v => !v.IsDefaultVersion)).map (fun v => v.VersionId) ∧
      p.numberOfVersions = policyResp.PolicyVersionList.length) ∧
    ((f.isSkippableManagedResource CfnIamPolicy policyResp.PolicyName []
        policyResp.Path).1 = false →
      findDefaultPolicyVersion policyResp.PolicyVersionList = none →
      populateIamPolicy f jsonOk policyTags policyResp
        = .error .noDefaultVersion) := by
  constructor
  · intro p h
    unfold populateIamPolicy at h
    by_cases h1 : (f.isSkippableManagedResource CfnIamPolicy
        policyResp.PolicyName [] policyResp.Path).1 = true
    · rw [if_pos h1] at h
      exact absurd h (by simp)
    · rw [if_neg h1] at h
      cases hdef : findDefaultPolicyVersion policyResp.PolicyVersionList with
      | none =>
        rw [hdef] at h
        exact absurd h (by simp)
      | some dv =>
        rw [hdef] at h
        dsimp only [] at h
        cases hdoc : NewPolicyDocumentFromEncodedJson jsonOk dv.Document with
        | none =>
          rw [hdoc] at h
          exact absurd h (by simp)
        | some doc =>
          rw [hdoc] at h
          dsimp only [] at h
          cases hold : findOldestPolicyVersionId
              policyResp.PolicyVersionList with
          | none =>
            rw [hold] at h
            exact absurd h (by simp)
          | some oldId =>
            rw [hold] at h
            dsimp only [] at h
            unfold populateIamPolicySecondPass at h
            have hp : p = builtPolicy policyTags policyResp doc oldId := by
              by_cases h2 : (f.isSkippableManagedResource CfnIamPolicy
                  policyResp.PolicyName
                  (builtPolicy policyTags policyResp doc oldId).Tags
                  policyResp.Path).1 = true
              · rw [if_pos h2] at h
                exact absurd h (by simp)
              · rw [if_neg h2] at h
                exact (Option.some_inj.mp (Except.ok.inj h)).symm
            have hne : policyResp.PolicyVersionList ≠ [] := by
              intro hnil
              rw [hnil] at hold
              exact absurd hold (by simp [findOldestPolicyVersionId])
            obtain ⟨o, homem, hoeq, homin⟩ :=
              findOldestPolicyVersionId_spec policyResp.PolicyVersionList hne
            refine ⟨⟨dv, rfl, ?_, ?_⟩, ⟨o, homem, ?_, homin⟩, ?_, ?_⟩
            · have := List.find?_some hdef
              simpa using this
            · rw [hp, NewPolicyDocumentFromEncodedJson_eq hdoc]
              rfl
            · rw [hp]
              show oldId = o.VersionId
              rw [hold] at hoeq
              exact Option.some_inj.mp hoeq
            · rw [hp]
              rfl
            · rw [hp]
              rfl
  · intro h1 h2
    unfold populateIamPolicy
    rw [if_neg (by simp [h1]), h2]

/-- C2 witness: the theorem applied to the spec's worked example
`[{v1, default:false, oldest}, {v2, default:true},
{v3, default:false, newest}]`. -/
theorem policy_version_selection_witness :
    (∃ dv, findDefaultPolicyVersion exManagedPolicy.PolicyVersionList
        = some dv ∧ dv.IsDefaultVersion = true ∧
        exPolicy.Policy = ⟨dv.Document⟩) ∧
    (∃ ov ∈ exManagedPolicy.PolicyVersionList,
      exPolicy.oldestVersionId = ov.VersionId ∧
      ∀ w ∈ exManagedPolicy.PolicyVersionList,
        ov.CreateDate ≤ w.CreateDate) ∧
    exPolicy.nondefaultVersionIds
      = (exManagedPolicy.PolicyVersionList.filter
          (fun v => !v.IsDefaultVersion)).map (fun v => v.VersionId) ∧
    exPolicy.numberOfVersions = exManagedPolicy.PolicyVersionList.length :=
  (policy_version_selection {} (fun _ => true) [] exManagedPolicy).1
    exPolicy (by rfl)

/-- C10: the per-policy loop body never faults with the out-of-range access
of `findOldestPolicyVersionId`, because `findDefaultPolicyVersion` is
evaluated first and already fails on any list with no default version; and
on any version list containing a default-flagged version,
`findOldestPolicyVersionId` is total. -/
theorem findOldest_total_after_default (f : AwsFetcher) (jsonOk : Str → Bool)
    (policyTags : List (Str × Tags)) (policyResp : ManagedPolicyDetail) :
    populateIamPolicy f jsonOk policyTags policyResp
      ≠ .error .indexOutOfRange ∧
    ∀ versions : List PolicyVersion,
      (∃ v ∈ versions, v.IsDefaultVersion = true) →
      (findOldestPolicyVersionId versions).isSome = true := by
  constructor
  · unfold populateIamPolicy
    by_cases h1 : (f.isSkippableManagedResource CfnIamPolicy
        policyResp.PolicyName [] policyResp.Path).1 = true
    · rw [if_pos h1]
      simp
    · rw [if_neg h1]
      cases hdef : findDefaultPolicyVersion policyResp.PolicyVersionList with
      | none => simp
      | some dv =>
        dsimp only []
        have hne : policyResp.PolicyVersionList ≠ [] :=
          List.ne_nil_of_mem (List.mem_of_find?_eq_some hdef)
        cases hdoc : NewPolicyDocumentFromEncodedJson jsonOk dv.Document with
        | none => simp
        | some doc =>
          dsimp only []
          cases hold : findOldestPolicyVersionId
              policyResp.PolicyVersionList with
          | none =>
            exfalso
            cases hvs : policyResp.PolicyVersionList with
            | nil => exact hne hvs
            | cons v rest =>
              rw [hvs] at hold
              exact absurd hold (by simp [findOldestPolicyVersionId])
          | some oldId =>
            dsimp only []
            unfold populateIamPolicySecondPass
            split
            · simp
            · simp
  · intro versions hdef
    cases versions with
    | nil =>
      obtain ⟨v, hv, _⟩ := hdef
      exact absurd hv (by simp)
    | cons v rest => rfl

/-- C10 witness: the loop body on the worked example returns no
out-of-range fault, and `findOldestPolicyVersionId` is defined on the
example version list, which contains a default version. -/
theorem findOldest_total_after_default_witness :
    (findOldestPolicyVersionId exVersions).isSome = true :=
  (findOldest_total_after_default {} (fun _ => true) [] exManagedPolicy).2
    exVersions (by decide)

/-- C4: the classifier runs at most twice per managed policy: a first pass
with the empty tag map; when that pass skips, the loop body yields nothing,
the second pass never runs (the outcome does not depend on the batched tag
lookup at all), and the policy contributes nothing to the page's result;
when the first pass does not skip, any second classifier call is made with
the tags resolved for the policy's ARN by the batched lookup. -/
theorem policy_classifier_two_pass (f : AwsFetcher) (jsonOk : Str → Bool)
    (policyTags : List (Str × Tags)) (policyResp : ManagedPolicyDetail) :
    ((f.isSkippableManagedResource CfnIamPolicy policyResp.PolicyName []
        policyResp.Path).1 = true →
      populateIamPolicy f jsonOk policyTags policyResp = .ok none ∧
      populateIamPolicyClassifierCalls f jsonOk policyTags policyResp
        = [[]] ∧
      (∀ otherTags, populateIamPolicy f jsonOk otherTags policyResp
        = .ok none) ∧
      (∀ rest, populateIamPolicies f jsonOk policyTags (policyResp :: rest)
        = populateIamPolicies f jsonOk policyTags rest)) ∧
    ((f.isSkippableManagedResource CfnIamPolicy policyResp.PolicyName []
        policyResp.Path).1 = false →
      populateIamPolicyClassifierCalls f jsonOk policyTags policyResp
        = [[]] ∨
      populateIamPolicyClassifierCalls f jsonOk policyTags policyResp
        = [[], (policyTags.lookup policyResp.Arn).getD []]) := by
  constructor
  · intro h1
    have hskip : ∀ otherTags,
        populateIamPolicy f jsonOk otherTags policyResp = .ok none := by
      intro otherTags
      unfold populateIamPolicy
      rw [if_pos h1]
    refine ⟨hskip policyTags, ?_, hskip, ?_⟩
    · unfold populateIamPolicyClassifierCalls
      rw [if_pos h1]
    · intro rest
      conv_lhs => rw [populateIamPolicies]
      rw [hskip policyTags]
  · intro h1
    unfold populateIamPolicyClassifierCalls
    rw [if_neg (by simp [h1])]
    cases findDefaultPolicyVersion policyResp.PolicyVersionList with
    | none => exact Or.inl rfl
    | some dv =>
      dsimp only []
      cases NewPolicyDocumentFromEncodedJson jsonOk dv.Document with
      | none => exact Or.inl rfl
      | some doc =>
        dsimp only []
        cases findOldestPolicyVersionId policyResp.PolicyVersionList with
        | none => exact Or.inl rfl
        | some oldId => exact Or.inr rfl

/-- C4 witness: a policy skipped on the first pass (path under the
configured skip prefix) yields nothing, sees exactly one classifier call
(with the empty tag map), and drops out of the page's policy list. -/
theorem policy_classifier_two_pass_witness :
    populateIamPolicy { SkipPathPrefixes := ["/skip/".data] }
      (fun _ => true) [] exSkippedPolicy = .ok none ∧
    populateIamPolicyClassifierCalls { SkipPathPrefixes := ["/skip/".data] }
      (fun _ => true) [] exSkippedPolicy = [[]] ∧
    populateIamPolicies { SkipPathPrefixes := ["/skip/".data] }
      (fun _ => true) [] [exSkippedPolicy, exManagedPolicy]
      = populateIamPolicies { SkipPathPrefixes := ["/skip/".data] }
        (fun _ => true) [] [exManagedPolicy] :=
  have h := (policy_classifier_two_pass { SkipPathPrefixes := ["/skip/".data] }
    (fun _ => true) [] exSkippedPolicy).1 (by decide)
  ⟨h.1, h.2.1, h.2.2.2 [exManagedPolicy]⟩

/-! ### The fetch join -/

/-- C1: at the join of the two concurrent fetch tasks, an S3 failure with
a successful IAM task returns the S3 error wrapped with the S3 phase name
and no snapshot; when both tasks fail the IAM error takes precedence; and
in every failing case no `AccountData` is exposed. -/
theorem fetch_join_error_precedence (iamErr s3Err : Option Str)
    (data : AccountData) :
    (iamErr = none → ∀ e, s3Err = some e →
      fetchJoin iamErr s3Err data
        = .error ⟨"Error fetching S3 data".data, e⟩) ∧
    (∀ ei es, iamErr = some ei → s3Err = some es →
      fetchJoin iamErr s3Err data
        = .error ⟨"Error fetching IAM data".data, ei⟩) ∧
    ((iamErr ≠ none ∨ s3Err ≠ none) → ∀ d,
      fetchJoin iamErr s3Err data ≠ .ok d) := by
  refine ⟨?_, ?_, ?_⟩
  · rintro rfl e rfl
    rfl
  · rintro ei es rfl rfl
    rfl
  · intro hfail d
    cases iamErr with
    | some e => simp [fetchJoin]
    | none =>
      cases s3Err with
      | some e => simp [fetchJoin]
      | none =>
        rcases hfail with h | h
        · exact absurd rfl h
        · exact absurd rfl h

/-- C1 witness: the join evaluated with a concrete S3-only failure and a
concrete double failure. -/
theorem fetch_join_error_precedence_witness :
    fetchJoin none (some "s3 boom".data) exData
      = .error ⟨"Error fetching S3 data".data, "s3 boom".data⟩ ∧
    fetchJoin (some "iam boom".data) (some "s3 boom".data) exData
      = .error ⟨"Error fetching IAM data".data, "iam boom".data⟩ ∧
    fetchJoin none (some "s3 boom".data) exData ≠ .ok exData :=
  ⟨(fetch_join_error_precedence none (some "s3 boom".data) exData).1
      rfl "s3 boom".data rfl,
   (fetch_join_error_precedence (some "iam boom".data)
      (some "s3 boom".data) exData).2.1 "iam boom".data "s3 boom".data
      rfl rfl,
   (fetch_join_error_precedence none (some "s3 boom".data) exData).2.2
      (Or.inr (by simp)) exData⟩

end Iamy
